import Mathlib

/-!
Shallow embedding of the ratox daemon (src/ratox.c) for checking its
natural-language specification. Pure helpers of the C source become Lean
functions on lists of byte values (Nat) and characters; the handlers that
mutate process state are embedded as functions from their inputs (and
oracles standing for the results of external transport calls) to records
of their observable effects. Machine arithmetic that matters is made
explicit with % 256 and bounded hypotheses.
-/

namespace Ratox

/-! ### Hex codec (id2str / str2id, src/ratox.c lines 1406-1429) -/

/-- Embeds the 16-entry table `hex[] = "0123456789ABCDEF"` of id2str. -/
def hexUpperChars : List Char := "0123456789ABCDEF".toList

/-- Embeds indexing `hex[n]`; in the source the index is always masked with 0xf. -/
def hexChar (n : Nat) : Char := hexUpperChars.getD n '0'

/-- Embeds id2str: each byte b becomes hex[(b >> 4) & 0xf] followed by hex[b & 0xf]. -/
def id2str : List Nat → List Char
  | [] => []
  | b :: rest => hexChar (b / 16 % 16) :: hexChar (b % 16) :: id2str rest

/-- Embeds the per-character behaviour of sscanf %2hhx inside str2id: a hex digit of
either case yields its value; other characters are outside the domain the caller
uses (the source comment makes invalid hex the caller's responsibility). -/
def hexVal (c : Char) : Nat :=
  if '0' ≤ c ∧ c ≤ '9' then c.toNat - 48
  else if 'a' ≤ c ∧ c ≤ 'f' then c.toNat - 87
  else if 'A' ≤ c ∧ c ≤ 'F' then c.toNat - 55
  else 0

/-- Embeds str2id: strlen/2 iterations, each parsing one %2hhx pair into a byte;
a trailing unpaired character is never read. -/
def str2id : List Char → List Nat
  | hi :: lo :: rest => (hexVal hi * 16 + hexVal lo) :: str2id rest
  | _ => []

/-! ### Friend directory naming (friendcreate, src/ratox.c lines 1431-1469) -/

/-- Embeds the naming step of friendcreate: `id2str(f->id, f->idstr)` followed by
`mkdir(f->idstr, 0777)`; the directory name is exactly the id2str encoding. -/
def friendDirName (id : List Nat) : List Char := id2str id

/-- States the specification's words for comparison: the lowercase hex encoding of
a public key, written independently of the source's id2str. -/
def hexLowerChars : List Char := "0123456789abcdef".toList

/-- States the specification's lowercase hex encoding of a key (spec section 4.1). -/
def specLowerHex : List Nat → List Char
  | [] => []
  | b :: rest => hexLowerChars.getD (b / 16 % 16) '0' :: hexLowerChars.getD (b % 16) '0' :: specLowerHex rest

/-- Concrete 32-byte key whose hex encoding contains letters, used to compare the
uppercase and lowercase encodings. -/
def keyCex : List Nat := List.replicate 32 171

/-! ### FIFO primitive (fiforead, src/ratox.c lines 443-461) -/

/-- Models one outcome of the underlying read(2) call on a FIFO descriptor:
success with a positive byte count, end of file (writer closed), or the errno
cases the source distinguishes (EINTR, EWOULDBLOCK, anything else). -/
inductive RawRead
  | eintr
  | ewouldblock
  | zero
  | bytes (n : Nat)
  | fail
deriving DecidableEq

/-- Models the observable outcome of fiforead: either the fatal eprintf branch, or
a return value together with whether fiforeset was invoked. -/
inductive FifoRes
  | fatal
  | res (ret : Int) (didReset : Bool)
deriving DecidableEq

/-- Embeds fiforead over the sequence of results the kernel read(2) produces for
its retries: r == 0 resets the FIFO and returns 0, EINTR jumps back to the read,
EWOULDBLOCK returns -1, any other error is fatal, and a positive count is
returned as is. An exhausted oracle (read never leaves EINTR) yields none. -/
def fiforead : List RawRead → Option FifoRes
  | [] => Option.none
  | RawRead.eintr :: rest => fiforead rest
  | RawRead.ewouldblock :: _ => some (FifoRes.res (-1) false)
  | RawRead.zero :: _ => some (FifoRes.res 0 true)
  | RawRead.bytes n :: _ => some (FifoRes.res n false)
  | RawRead.fail :: _ => some FifoRes.fatal

/-! ### Connection-status callback (cbconnstatus, src/ratox.c lines 694-742) -/

/-- Models enum TOX_CONNECTION: no connection, TCP relay, UDP direct. -/
inductive Conn
  | cnone
  | ctcp
  | cudp
deriving DecidableEq

/-- Embeds the three logmsg lines of the cbconnstatus switch, in source order. -/
def connLogAll : List String :=
  ["Offline", "Online using TCP", "Online using UDP"]

/-- Embeds which case of the switch the status selects. -/
def connCase : Conn → Nat
  | Conn.cnone => 0
  | Conn.ctcp => 1
  | Conn.cudp => 2

/-- Embeds the logging of cbconnstatus: the switch has no break statements, so
control falls through and every case from the selected one onward logs its line. -/
def cbconnstatusLogs (st : Conn) : List String :=
  connLogAll.drop (connCase st)

/-- Models the friend records of the daemon's friendhead list: transport friend
number and 32-byte public key. -/
structure FriendR where
  num : Nat
  id : List Nat
deriving DecidableEq

/-- Models a pending request record: the requester's 32-byte public key. -/
structure ReqR where
  id : List Nat
deriving DecidableEq

/-- Embeds the request-cleanup loop at the end of cbconnstatus: the friend lookup
leaves f as the matching record, or NULL when no friend has the callback's
number; the loop then reads f->id for every pending request, so with no match
and a non-empty ledger the first memcmp dereferences NULL (modelled as none).
On success the requests whose key equals the friend's key are removed. -/
def cbconnstatusCleanup (friends : List FriendR) (reqs : List ReqR) (frnum : Nat) :
    Option (List ReqR) :=
  match friends.find? (fun fr => fr.num == frnum) with
  | some fr => some (reqs.filter (fun req => fr.id != req.id))
  | Option.none => if reqs = [] then some [] else Option.none

/-- Concrete pending request used to exhibit the cleanup on an absent friend. -/
def reqCex : ReqR := ⟨List.replicate 32 7⟩

/-! ### Transfer engine (src/ratox.c lines 149-160, 866-922, 987-1002, 1021-1080) -/

/-- Models the five send-transfer states of the source enumeration. -/
inductive TState
  | tnone
  | initiated
  | pending
  | inprogress
  | paused
deriving DecidableEq

/-- Models struct transfer: transfer number, allocated chunk buffer (none is the
NULL pointer, some k a buffer of k bytes), advertised chunk size, last-read byte
count, pending-buffer flag, state, back-pressure timestamp, cooldown flag. -/
structure Transfer where
  fnum : Nat
  buf : Option Nat
  chunksz : Nat
  n : Nat
  pendingbuf : Bool
  state : TState
  lastblock : Nat × Nat
  cooldown : Bool
deriving DecidableEq

/-- Embeds the constants behind tox_file_data_size (src/ratox.c lines 286-296). -/
def MAX_CRYPTO_PACKET_SIZE : Nat := 1400

/-- Embeds crypto_box_MACBYTES. -/
def crypto_box_MACBYTES : Nat := 16

/-- Embeds CRYPTO_DATA_PACKET_MIN_SIZE = 1 + sizeof(uint16_t) + (sizeof(uint32_t)
+ sizeof(uint32_t)) + crypto_box_MACBYTES. -/
def CRYPTO_DATA_PACKET_MIN_SIZE : Nat := 1 + 2 + (4 + 4) + crypto_box_MACBYTES

/-- Embeds MAX_CRYPTO_DATA_SIZE. -/
def MAX_CRYPTO_DATA_SIZE : Nat := MAX_CRYPTO_PACKET_SIZE - CRYPTO_DATA_PACKET_MIN_SIZE

/-- Embeds tox_file_data_size, the chunk size the daemon uses for every friend. -/
def tox_file_data_size : Nat := MAX_CRYPTO_DATA_SIZE - 2

/-- Models enum TOX_FILE_CONTROL. -/
inductive FileCtrl
  | resume
  | pause
  | cancel
deriving DecidableEq

/-- Embeds `rec_sen = (fnum == 0 && ctrltype == TOX_FILE_CONTROL_RESUME) ? 1 : 0`
from cbfilecontrol; note it is true only for RESUME controls. -/
def rec_sen (fnum : Nat) (ctrl : FileCtrl) : Bool :=
  fnum == 0 && ctrl == FileCtrl.resume

/-- Embeds the effect of cbfilecontrol on the send-transfer substate f->tx (the
CANCEL case with rec_sen == 0 invokes cancelrxtransfer, which never touches tx).
Besides the field updates, the tx CANCEL branch would reset the file_in FIFO. -/
def cbfilecontrolTx (fnum : Nat) (ctrl : FileCtrl) (t : Transfer) : Transfer :=
  match ctrl with
  | FileCtrl.resume =>
    if rec_sen fnum ctrl then
      if t.state = TState.paused then
        { t with state := TState.inprogress }
      else
        { t with fnum := fnum, chunksz := tox_file_data_size,
                 buf := some tox_file_data_size, n := 0, pendingbuf := false,
                 state := TState.inprogress }
    else t
  | FileCtrl.pause =>
    if rec_sen fnum ctrl then
      if t.state = TState.inprogress then { t with state := TState.paused } else t
    else t
  | FileCtrl.cancel =>
    if rec_sen fnum ctrl then
      { t with state := TState.tnone, buf := Option.none, lastblock := (0, 0),
               cooldown := false }
    else t

/-- Embeds canceltxtransfer on the tx record: a no-op in state NONE; otherwise
the state becomes NONE, the buffer is freed, the timestamp and cooldown are
reset — and pendingbuf is left untouched. The I/O it also performs (sending a
transport CANCEL and resetting the file_in FIFO) does not affect these fields. -/
def canceltxtransfer (t : Transfer) : Transfer :=
  if t.state = TState.tnone then t
  else
    { t with state := TState.tnone, buf := Option.none, lastblock := (0, 0),
             cooldown := false }

/-- Models the result of one fiforead call inside sendfriendfile: end of file,
no data available, or a positive chunk of n bytes. -/
inductive ReadRes
  | eof
  | nodata
  | bytes (n : Nat)
deriving DecidableEq

/-- Models the external outcomes one iteration of the sendfriendfile loop can
observe: whether retransmitting the pending buffer succeeds, what fiforead
returns, whether enqueueing the fresh chunk succeeds, and the monotonic clock
value recorded on a back-pressure event. -/
structure SendStep where
  pendOk : Bool
  rd : ReadRes
  sendOk : Bool
  now : Nat × Nat
deriving DecidableEq

/-- Embeds the sendfriendfile chunk loop; the list of steps stands for the loop
iterations the iteration-interval time budget admits (the loop also exits when
the list is exhausted). Each iteration: if pendingbuf is set, retry the retained
chunk — on failure record the block time, set cooldown and stop; then read from
file_in — end of file sends the completion CANCEL and sets state NONE, no data
stops, and a fresh chunk of n bytes is stored in tx.n and enqueued — on failure
record the block time, set cooldown and pendingbuf and return. The source
clears pendingbuf only when it was set; writing the clear unconditionally is
extensionally the same assignment. -/
def sendfriendfile : List SendStep → Transfer → Transfer
  | [], t => t
  | s :: rest, t =>
    if t.pendingbuf ∧ s.pendOk = false then
      { t with cooldown := true, lastblock := s.now }
    else
      match s.rd with
      | ReadRes.eof => { t with pendingbuf := false, state := TState.tnone }
      | ReadRes.nodata => { t with pendingbuf := false }
      | ReadRes.bytes n =>
        if s.sendOk = false then
          { t with n := n, cooldown := true, pendingbuf := true,
                   lastblock := s.now }
        else sendfriendfile rest { t with pendingbuf := false, n := n }

/-- States the claimed invariant over a send-transfer record: a set pendingbuf
flag implies the transfer is in progress. -/
def TxInv (t : Transfer) : Prop :=
  t.pendingbuf = true → t.state = TState.inprogress

instance (t : Transfer) : Decidable (TxInv t) := by
  unfold TxInv
  infer_instance

/-- Concrete transfer in state INITIATED with an active cooldown. -/
def t2cex : Transfer :=
  { fnum := 9, buf := Option.none, chunksz := 0, n := 0, pendingbuf := false,
    state := TState.initiated, lastblock := (5, 5), cooldown := true }

/-- Concrete in-progress transfer holding a pending chunk. -/
def t3cex : Transfer :=
  { fnum := 0, buf := some tox_file_data_size, chunksz := tox_file_data_size,
    n := 4, pendingbuf := true, state := TState.inprogress, lastblock := (0, 0),
    cooldown := true }

/-! ### Global slot handlers (src/ratox.c lines 1568-1745) -/

/-- Embeds the newline stripping `if (buf[n-1] == '\n') n--` the slot handlers
apply to the bytes a successful read delivered. -/
def stripNl (inp : List Char) : List Char :=
  match inp.getLast? with
  | some c => if c = '\n' then inp.dropLast else inp
  | Option.none => inp

/-- Embeds the `#define TOX_USER_STATUS_INVALID 0` at the top of the source,
which collides with the index of the "none" entry of ustate[]. -/
def TOX_USER_STATUS_INVALID : Nat := 0

/-- Embeds ustate[TOX_USER_STATUS_NONE]. -/
def ustateNone : List Char := "none".toList

/-- Embeds ustate[TOX_USER_STATUS_AWAY]. -/
def ustateAway : List Char := "away".toList

/-- Embeds ustate[TOX_USER_STATUS_BUSY]. -/
def ustateBusy : List Char := "busy".toList

/-- Embeds the ustate[] table. -/
def ustate : List (List Char) := [ustateNone, ustateAway, ustateBusy]

/-- Models the observable effects of one state-slot input: whether the err file
was written, whether the slot's in FIFO was reset by the handler, what was
echoed to out, and whether the identity store was persisted. -/
structure SlotEff where
  errWritten : Bool
  reset : Bool
  outWritten : Option (List Char)
  saved : Bool
deriving DecidableEq

/-- Embeds setuserstate on the bytes a positive fiforead delivered: the
three-iteration matching loop is unrolled; each iteration i tests
`i != TOX_USER_STATUS_INVALID && strcmp(buf, ustate[i]) == 0`, so index 0
("none") can never match; on no match the handler writes "invalid" to the err
file and returns without resetting the in FIFO. -/
def setuserstate (inp : List Char) : SlotEff :=
  let w := stripNl inp
  if 0 ≠ TOX_USER_STATUS_INVALID ∧ w = ustateNone then
    { errWritten := false, reset := false, outWritten := some w, saved := true }
  else if 1 ≠ TOX_USER_STATUS_INVALID ∧ w = ustateAway then
    { errWritten := false, reset := false, outWritten := some w, saved := true }
  else if 2 ≠ TOX_USER_STATUS_INVALID ∧ w = ustateBusy then
    { errWritten := false, reset := false, outWritten := some w, saved := true }
  else
    { errWritten := true, reset := false, outWritten := Option.none,
      saved := false }

/-- Embeds isspace over the characters the C locale treats as whitespace. -/
def isspaceC (c : Char) : Bool :=
  c == ' ' || c == '\t' || c == '\n' || c == '\x0b' || c == '\x0c' || c == '\r'

/-- Embeds TOX_FRIEND_ADDRESS_SIZE (38 bytes). -/
def TOX_FRIEND_ADDRESS_SIZE : Nat := 38

/-- Embeds the reqerr[] table mapping transport friend-add errors to strings. -/
def reqerr : List String :=
  ["No errors, completed successfully",
   "Unexpected argument, NULL error",
   "Message is too long",
   "Please add a message to your request",
   "That appears to be your own ID",
   "Friend request already sent",
   "Bad checksum while verifying address",
   "Friend already added but invalid nospam",
   "Error increasing the friend list size"]

/-- Models the transport's answer to tox_friend_add: a friend number or a
TOX_ERR_FRIEND_ADD code. -/
inductive AddRes
  | ok (fnum : Nat)
  | err (e : Nat)
deriving DecidableEq

/-- Models the observable effects of one request-slot input. -/
structure ReqSlotEff where
  errText : Option String
  reset : Bool
  dirCreated : Bool
  saved : Bool
deriving DecidableEq

/-- Embeds sendfriendreq on the bytes a positive fiforead delivered: the scan
`for (p = buf; *p && !isspace(*p); p++)` makes the id portion everything before
the first whitespace; when its length differs from 2 * TOX_FRIEND_ADDRESS_SIZE
the handler writes "Invalid friend ID" to the err file and returns — without
resetting the in FIFO; otherwise tox_friend_add decides between the mapped
error string and friend creation plus persistence. -/
def sendfriendreq (ares : AddRes) (inp : List Char) : ReqSlotEff :=
  let idpart := inp.takeWhile (fun c => !(isspaceC c))
  if idpart.length ≠ 2 * TOX_FRIEND_ADDRESS_SIZE then
    { errText := some "Invalid friend ID", reset := false, dirCreated := false,
      saved := false }
  else
    match ares with
    | AddRes.err e =>
      { errText := some (reqerr.getD e ""), reset := false, dirCreated := false,
        saved := false }
    | AddRes.ok _ =>
      { errText := Option.none, reset := false, dirCreated := true,
        saved := true }

/-! ### Nospam slot (setnospam, src/ratox.c lines 1706-1745) -/

/-- Embeds the per-character validation of setnospam:
`nospam[i] < '0' || (nospam[i] > '9' && nospam[i] < 'A') || nospam[i] > 'F'`
rejects the character. -/
def validNospamChar (c : Char) : Bool :=
  decide (¬ (c < '0' ∨ ('9' < c ∧ c < 'A') ∨ 'F' < c))

/-- Embeds strtoul(nospam, NULL, 16) on an all-valid hex string. -/
def hexFold (s : List Char) : Nat :=
  s.foldl (fun acc c => acc * 16 + hexVal c) 0

/-- Embeds the big-endian byte image of a 32-bit nospam value as it appears in
the address (and as %08X prints it). -/
def nospamBytes (v : Nat) : List Nat :=
  [v / 2 ^ 24 % 256, v / 2 ^ 16 % 256, v / 2 ^ 8 % 256, v % 256]

/-- Modelled from the spec: tox_self_get_address belongs to the transport
library, which is not part of this repository; the spec describes the 38-byte
address as the 32-byte public key plus the 4-byte nospam and a 2-byte checksum.
The checksum computation is left as a parameter, the spec not defining it. -/
def toxAddress (pk : List Nat) (v : Nat) (cks : List Nat → List Nat) : List Nat :=
  pk ++ nospamBytes v ++ cks (pk ++ nospamBytes v)

/-- Embeds the dprintf("%08X") rendering of a nospam value. -/
def hex8Chars (v : Nat) : List Char := id2str (nospamBytes v)

/-- Models the observable effects of one nospam-slot input. -/
structure NospamEff where
  errWritten : Bool
  reset : Bool
  accepted : Bool
  newNospam : Option Nat
  outChars : Option (List Char)
  idChars : Option (List Char)
deriving DecidableEq

/-- Embeds setnospam on the bytes a positive fiforead delivered (the read caps
them at 8): strip one trailing newline; if any remaining character fails the
hex check, write the err message and leave the nospam unset; otherwise parse
with strtoul base 16, persist, echo %08X to out and rewrite the id file from
the refreshed address. Both paths fall to the end label, which resets the
slot's in FIFO. -/
def setnospam (pk : List Nat) (cks : List Nat → List Nat) (inp : List Char) :
    NospamEff :=
  let s := stripNl inp
  if s.all validNospamChar then
    let v := hexFold s
    { errWritten := false, reset := true, accepted := true, newNospam := some v,
      outChars := some (hex8Chars v),
      idChars := some (id2str (toxAddress pk v cks)) }
  else
    { errWritten := true, reset := true, accepted := false,
      newNospam := Option.none, outChars := Option.none,
      idChars := Option.none }

/-! ### Request ledger decision (loop, src/ratox.c lines 1902-1932) -/

/-- Models the observable effects of handling one byte read from a pending
request's FIFO. -/
structure ReqDecisionEff where
  removed : Bool
  fifoReset : Bool
  addInvoked : Bool
  friendDeleted : Bool
  dirCreated : Bool
  saved : Bool
deriving DecidableEq

/-- Embeds the decision block of the event loop after fiforead returned exactly
one byte c from a request FIFO: a byte other than '0' or '1' is skipped with
the request and its FIFO left alone; otherwise tox_friend_add_norequest is
invoked (addRes models its result) — on failure the FIFO is reset and the
request kept; on success a '1' creates the friend directory and persists while
a '0' deletes the transport's freshly added friend entry, and in both cases the
request FIFO is unlinked and the request leaves the ledger. -/
def requestFifoDecision (addRes : Option Nat) (c : Char) : ReqDecisionEff :=
  if c ≠ '0' ∧ c ≠ '1' then
    { removed := false, fifoReset := false, addInvoked := false,
      friendDeleted := false, dirCreated := false, saved := false }
  else
    match addRes with
    | Option.none =>
      { removed := false, fifoReset := true, addInvoked := true,
        friendDeleted := false, dirCreated := false, saved := false }
    | some _ =>
      if c = '1' then
        { removed := true, fifoReset := false, addInvoked := true,
          friendDeleted := false, dirCreated := true, saved := true }
      else
        { removed := true, fifoReset := false, addInvoked := true,
          friendDeleted := true, dirCreated := false, saved := false }

/-- Concrete word that is no user state. -/
def bogusWord : List Char := "bogus".toList

/-- Concrete all-zero 32-byte public key. -/
def pkZ : List Nat := List.replicate 32 0

/-- Concrete checksum stub returning two zero bytes. -/
def cks0 : List Nat → List Nat := fun _ => [0, 0]

/-- Concrete three-character hex input. -/
def abcInput : List Char := "ABC".toList

/-- Concrete eight-character hex input. -/
def deadbeefInput : List Char := "DEADBEEF".toList

end Ratox

namespace Ratox

lemma hexVal_hexChar_of_lt {n : Nat} (h : n < 16) : hexVal (hexChar n) = n := by
  interval_cases n <;> decide

lemma hexVal_toLower_hexChar_of_lt {n : Nat} (h : n < 16) :
    hexVal (Char.toLower (hexChar n)) = n := by
  interval_cases n <;> decide

lemma hexpair_decode {b : Nat} (hb : b < 256) :
    hexVal (hexChar (b / 16 % 16)) * 16 + hexVal (hexChar (b % 16)) = b := by
  have h1 : b / 16 < 16 := Nat.div_lt_of_lt_mul (by omega)
  rw [Nat.mod_eq_of_lt h1, hexVal_hexChar_of_lt h1,
    hexVal_hexChar_of_lt (Nat.mod_lt _ (by omega))]
  omega

lemma hexpair_decode_lower {b : Nat} (hb : b < 256) :
    hexVal (Char.toLower (hexChar (b / 16 % 16))) * 16 +
      hexVal (Char.toLower (hexChar (b % 16))) = b := by
  have h1 : b / 16 < 16 := Nat.div_lt_of_lt_mul (by omega)
  rw [Nat.mod_eq_of_lt h1, hexVal_toLower_hexChar_of_lt h1,
    hexVal_toLower_hexChar_of_lt (Nat.mod_lt _ (by omega))]
  omega

lemma str2id_id2str (id : List Nat) (hb : ∀ b ∈ id, b < 256) :
    str2id (id2str id) = id := by
  induction id with
  | nil => rfl
  | cons b rest ih =>
    have hb1 : b < 256 := hb b (by simp)
    simp only [id2str, str2id, hexpair_decode hb1, List.cons.injEq, true_and]
    exact ih (fun x hx => hb x (by simp [hx]))

lemma str2id_id2str_lower (id : List Nat) (hb : ∀ b ∈ id, b < 256) :
    str2id ((id2str id).map Char.toLower) = id := by
  induction id with
  | nil => rfl
  | cons b rest ih =>
    have hb1 : b < 256 := hb b (by simp)
    simp only [id2str, List.map_cons, str2id, hexpair_decode_lower hb1,
      List.cons.injEq, true_and]
    exact ih (fun x hx => hb x (by simp [hx]))

/-- C8: for every 32-byte public key, str2id applied to the 64 hex characters
produced by id2str recovers the original bytes, and str2id also recovers the same
key from the all-lowercase form of that string. -/
theorem c8_hex_roundtrip (id : List Nat) (_hlen : id.length = 32)
    (hb : ∀ b ∈ id, b < 256) :
    str2id (id2str id) = id ∧ str2id ((id2str id).map Char.toLower) = id :=
  ⟨str2id_id2str id hb, str2id_id2str_lower id hb⟩

/-- C8 witness: the round trip evaluated on a concrete 32-byte key. -/
theorem c8_hex_roundtrip_witness :
    str2id (id2str keyCex) = keyCex ∧
      str2id ((id2str keyCex).map Char.toLower) = keyCex :=
  c8_hex_roundtrip keyCex (by decide) (by decide)

lemma hexChar_contains (n : Nat) : hexUpperChars.contains (hexChar n) = true := by
  by_cases h : n < 16
  · interval_cases n <;> decide
  · have hlen : hexUpperChars.length ≤ n := by simp [hexUpperChars]; omega
    have hdef : hexChar n = '0' := List.getD_eq_default _ _ hlen
    rw [hdef]
    decide

lemma toLower_hexChar (n : Nat) :
    Char.toLower (hexChar n) = hexLowerChars.getD n '0' := by
  by_cases h : n < 16
  · interval_cases n <;> decide
  · have h1 : hexUpperChars.length ≤ n := by simp [hexUpperChars]; omega
    have h2 : hexLowerChars.length ≤ n := by simp [hexLowerChars]; omega
    rw [hexChar, List.getD_eq_default _ _ h1, List.getD_eq_default _ _ h2]
    decide

/-- C9 counterexample: the directory created by friendcreate for a concrete
32-byte key is not named by the lowercase hex encoding of that key. -/
theorem c9_counterexample : friendDirName keyCex ≠ specLowerHex keyCex := by
  decide

/-- C9 amended: the per-friend directory name is the uppercase hex encoding of
the friend's public key — the very id2str encoding used for addresses in the id
file; every character of the name is an uppercase hex digit, and lowering its
case yields exactly the specification's lowercase encoding. -/
theorem c9_dirname_upper (id : List Nat) :
    friendDirName id = id2str id ∧
      (friendDirName id).all (fun c => hexUpperChars.contains c) = true ∧
      specLowerHex id = (friendDirName id).map Char.toLower := by
  refine ⟨rfl, ?_, ?_⟩
  · induction id with
    | nil => rfl
    | cons b rest ih =>
      simp only [friendDirName, id2str, List.all_cons, hexChar_contains,
        Bool.true_and]
      exact ih
  · induction id with
    | nil => rfl
    | cons b rest ih =>
      simp only [friendDirName, id2str, specLowerHex, List.map_cons,
        toLower_hexChar, List.cons.injEq, true_and, and_true] at ih ⊢
      exact ih

/-- Helper: a run of EINTR results makes fiforead retry until the run ends. -/
lemma fiforead_eintr_append (pre : List RawRead)
    (hpre : ∀ x ∈ pre, x = RawRead.eintr) (l : List RawRead) :
    fiforead (pre ++ l) = fiforead l := by
  induction pre with
  | nil => rfl
  | cons x rest ih =>
    have hx : x = RawRead.eintr := hpre x (by simp)
    subst hx
    simpa [fiforead] using ih (fun y hy => hpre y (by simp [hy]))

/-- C4: a read interrupted by EINTR is retried; EWOULDBLOCK yields the no-data
return -1 without touching the FIFO; a zero-byte read (writer closed) triggers
the reset protocol and yields the no-data return 0; a positive count is returned
as read. -/
theorem c4_fiforead (pre : List RawRead) (hpre : ∀ x ∈ pre, x = RawRead.eintr)
    (n : Nat) (hn : 0 < n) :
    fiforead (pre ++ [RawRead.ewouldblock]) = some (FifoRes.res (-1) false) ∧
      fiforead (pre ++ [RawRead.zero]) = some (FifoRes.res 0 true) ∧
      fiforead (pre ++ [RawRead.bytes n]) = some (FifoRes.res n false) ∧
      (0 : Int) < n := by
  rw [fiforead_eintr_append pre hpre, fiforead_eintr_append pre hpre,
    fiforead_eintr_append pre hpre]
  exact ⟨rfl, rfl, rfl, by exact_mod_cast hn⟩

/-- C4 witness: two EINTR retries followed by each terminal outcome. -/
theorem c4_fiforead_witness :
    fiforead ([RawRead.eintr, RawRead.eintr] ++ [RawRead.ewouldblock]) =
        some (FifoRes.res (-1) false) ∧
      fiforead ([RawRead.eintr, RawRead.eintr] ++ [RawRead.zero]) =
        some (FifoRes.res 0 true) ∧
      fiforead ([RawRead.eintr, RawRead.eintr] ++ [RawRead.bytes 7]) =
        some (FifoRes.res 7 false) ∧
      (0 : Int) < (7 : Nat) :=
  c4_fiforead [RawRead.eintr, RawRead.eintr] (by decide) 7 (by decide)

/-- C5: evaluated at the failing input TOX_CONNECTION_NONE, the cbconnstatus
switch falls through its cases and emits all three log lines instead of the
single distinct line per status that the specification requires. -/
theorem c5_connstatus_fallthrough :
    cbconnstatusLogs Conn.cnone =
        ["Offline", "Online using TCP", "Online using UDP"] ∧
      (cbconnstatusLogs Conn.cnone).length = 3 ∧
      (cbconnstatusLogs Conn.ctcp).length = 2 := by
  refine ⟨rfl, rfl, rfl⟩

/-- C10: with an empty friend collection (so the lookup for friend number 0
fails) and a non-empty request ledger, the cleanup loop of cbconnstatus reads
the key of the absent friend record and reaches the null-dereference branch. -/
theorem c10_cleanup_null_deref :
    cbconnstatusCleanup [] [reqCex] 0 = Option.none ∧
      cbconnstatusCleanup [⟨0, reqCex.id⟩] [reqCex] 0 = some [] := by
  refine ⟨rfl, by decide⟩

/-- C2 counterexample: a transfer in state INITIATED whose cooldown flag is set
keeps that flag across the RESUME handling for transfer 0, although the claim
says the transition clears it. -/
theorem c2_counterexample :
    t2cex.state = TState.initiated ∧
      (cbfilecontrolTx 0 FileCtrl.resume t2cex).state = TState.inprogress ∧
      (cbfilecontrolTx 0 FileCtrl.resume t2cex).cooldown = true := by
  refine ⟨rfl, by decide, by decide⟩

/-- C2 amended: from state INITIATED, a transport file-control RESUME for
transfer number 0 moves the send state to INPROGRESS, allocates a chunk buffer
of tox_file_data_size = 1371 bytes, records that size, resets the chunk count
and clears pendingbuf; the cooldown flag and the back-pressure timestamp are
left unchanged. -/
theorem c2_resume_initiated (t : Transfer) (h : t.state = TState.initiated) :
    cbfilecontrolTx 0 FileCtrl.resume t =
      { t with fnum := 0, chunksz := tox_file_data_size,
               buf := some tox_file_data_size, n := 0, pendingbuf := false,
               state := TState.inprogress } ∧
      (cbfilecontrolTx 0 FileCtrl.resume t).cooldown = t.cooldown ∧
      (cbfilecontrolTx 0 FileCtrl.resume t).lastblock = t.lastblock ∧
      tox_file_data_size = 1371 := by
  have hne : ¬ t.state = TState.paused := by rw [h]; decide
  refine ⟨?_, ?_, ?_, by decide⟩ <;>
    simp [cbfilecontrolTx, rec_sen, hne]

/-- C2 witness: the amended transition evaluated on a concrete INITIATED
transfer with cooldown set. -/
theorem c2_resume_initiated_witness :
    cbfilecontrolTx 0 FileCtrl.resume t2cex =
      { t2cex with fnum := 0, chunksz := tox_file_data_size,
                   buf := some tox_file_data_size, n := 0, pendingbuf := false,
                   state := TState.inprogress } ∧
      (cbfilecontrolTx 0 FileCtrl.resume t2cex).cooldown = t2cex.cooldown ∧
      (cbfilecontrolTx 0 FileCtrl.resume t2cex).lastblock = t2cex.lastblock ∧
      tox_file_data_size = 1371 :=
  c2_resume_initiated t2cex rfl

/-- Helper: the chunk loop started in state INPROGRESS leaves the invariant. -/
lemma sendfriendfile_inv (steps : List SendStep) (t : Transfer)
    (ht : t.state = TState.inprogress) : TxInv (sendfriendfile steps t) := by
  induction steps generalizing t with
  | nil => intro hp; simpa [sendfriendfile] using ht
  | cons s rest ih =>
    simp only [sendfriendfile]
    split
    · intro hp; simpa using ht
    · split
      · intro hp; simp at hp
      · intro hp; simp at hp
      · split
        · intro hp; simpa using ht
        · exact ih _ (by simpa using ht)

/-- Helper: cbfilecontrol preserves the invariant on the send substate (the
branch that could break it — a tx CANCEL — is dead because rec_sen is computed
from the RESUME comparison, and the live PAUSE and CANCEL branches leave tx
unchanged). -/
lemma cbfilecontrolTx_inv (fnum : Nat) (ctrl : FileCtrl) (u : Transfer)
    (hu : TxInv u) : TxInv (cbfilecontrolTx fnum ctrl u) := by
  cases ctrl with
  | resume =>
    simp only [cbfilecontrolTx]
    split
    · split
      · intro hp
        simp
      · intro hp
        simp at hp
    · exact hu
  | pause =>
    simp only [cbfilecontrolTx]
    split
    · next hr => simp [rec_sen] at hr
    · exact hu
  | cancel =>
    simp only [cbfilecontrolTx]
    split
    · next hr => simp [rec_sen] at hr
    · exact hu

/-- C3 amended: if pendingbuf is set then the send state is INPROGRESS — this
is preserved by the chunk loop (entered, as at both call sites, in state
INPROGRESS) and by the file-control handler; transfer cancellation, however,
sets the state to NONE while leaving pendingbuf untouched, so the invariant can
fail right after cancelling a transfer whose chunk was still pending. -/
theorem c3_pendingbuf_invariant (steps : List SendStep) (t u v : Transfer)
    (ht : t.state = TState.inprogress) (hu : TxInv u) :
    TxInv (sendfriendfile steps t) ∧
      (∀ fnum ctrl, TxInv (cbfilecontrolTx fnum ctrl u)) ∧
      (canceltxtransfer v).pendingbuf = v.pendingbuf := by
  refine ⟨sendfriendfile_inv steps t ht,
    fun fnum ctrl => cbfilecontrolTx_inv fnum ctrl u hu, ?_⟩
  unfold canceltxtransfer
  split <;> rfl

/-- C3 witness: the amended invariant evaluated on concrete transfers. -/
theorem c3_pendingbuf_invariant_witness :
    TxInv (sendfriendfile [] t3cex) ∧
      (∀ fnum ctrl, TxInv (cbfilecontrolTx fnum ctrl t3cex)) ∧
      (canceltxtransfer t2cex).pendingbuf = t2cex.pendingbuf :=
  c3_pendingbuf_invariant [] t3cex t3cex t2cex rfl (by decide)

/-- C3 counterexample: an in-progress transfer with a pending chunk satisfies
the invariant, yet after canceltxtransfer the state is NONE while pendingbuf is
still set, so the claimed invariant fails after cancellation. -/
theorem c3_counterexample :
    TxInv t3cex ∧ ¬ TxInv (canceltxtransfer t3cex) ∧
      (canceltxtransfer t3cex).pendingbuf = true ∧
      (canceltxtransfer t3cex).state = TState.tnone := by
  refine ⟨by decide, by decide, by decide, by decide⟩

/-- C1: after exactly one byte is read from a pending request's FIFO and with
the transport accepting the add (addRes = some r), a '0' byte deletes the
transport's friend entry and removes the request, a '1' byte invokes
add-without-request, creates the friend directory, persists the state and
removes the request, and any other byte leaves the request in the ledger with
its FIFO open and neither adds nor deletes a friend. -/
theorem c1_request_fifo_decision (r : Nat) (addRes : Option Nat)
    (ha : addRes = some r) (c : Char) (h0 : c ≠ '0') (h1 : c ≠ '1') :
    requestFifoDecision addRes '0' =
        { removed := true, fifoReset := false, addInvoked := true,
          friendDeleted := true, dirCreated := false, saved := false } ∧
      requestFifoDecision addRes '1' =
        { removed := true, fifoReset := false, addInvoked := true,
          friendDeleted := false, dirCreated := true, saved := true } ∧
      requestFifoDecision addRes c =
        { removed := false, fifoReset := false, addInvoked := false,
          friendDeleted := false, dirCreated := false, saved := false } := by
  subst ha
  refine ⟨rfl, rfl, ?_⟩
  unfold requestFifoDecision
  rw [if_pos ⟨h0, h1⟩]

/-- C1 witness: the decision evaluated with a concrete transport answer and the
concrete unrelated byte x. -/
theorem c1_request_fifo_decision_witness :
    requestFifoDecision (some 3) '0' =
        { removed := true, fifoReset := false, addInvoked := true,
          friendDeleted := true, dirCreated := false, saved := false } ∧
      requestFifoDecision (some 3) '1' =
        { removed := true, fifoReset := false, addInvoked := true,
          friendDeleted := false, dirCreated := true, saved := true } ∧
      requestFifoDecision (some 3) 'x' =
        { removed := false, fifoReset := false, addInvoked := false,
          friendDeleted := false, dirCreated := false, saved := false } :=
  c1_request_fifo_decision 3 (some 3) rfl 'x' (by decide) (by decide)

/-- C6 counterexample: an invalid state word makes setuserstate write the err
file but leave the state slot's in FIFO unreset, contradicting the claim that
every validation failure resets the slot's input FIFO. -/
theorem c6_counterexample :
    (setuserstate bogusWord).errWritten = true ∧
      (setuserstate bogusWord).reset = false := by
  refine ⟨by decide, by decide⟩

/-- C6 amended: every validation failure on a global slot's in FIFO writes an
error message to that slot's err file; only the nospam handler then resets its
input FIFO — the state and request handlers return with theirs untouched. -/
theorem c6_validation_errors
    (w : List Char) (hw : ∀ u ∈ ustate, stripNl w ≠ u)
    (ares : AddRes) (q : List Char)
    (hq : (q.takeWhile (fun c => !(isspaceC c))).length ≠
      2 * TOX_FRIEND_ADDRESS_SIZE)
    (pk : List Nat) (cks : List Nat → List Nat) (s : List Char)
    (hs : (stripNl s).all validNospamChar = false) :
    (setuserstate w).errWritten = true ∧ (setuserstate w).reset = false ∧
      (sendfriendreq ares q).errText = some "Invalid friend ID" ∧
      (sendfriendreq ares q).reset = false ∧
      (setnospam pk cks s).errWritten = true ∧
      (setnospam pk cks s).reset = true := by
  have hA : stripNl w ≠ ustateAway := hw _ (by simp [ustate])
  have hB : stripNl w ≠ ustateBusy := hw _ (by simp [ustate])
  refine ⟨?_, ?_, ?_, ?_, ?_, ?_⟩
  · simp [setuserstate, TOX_USER_STATUS_INVALID, hA, hB]
  · simp [setuserstate, TOX_USER_STATUS_INVALID, hA, hB]
  · simp [sendfriendreq, hq]
  · simp [sendfriendreq, hq]
  · simp [setnospam, hs]
  · simp [setnospam, hs]

/-- C6 witness: the three failure paths evaluated on concrete inputs. -/
theorem c6_validation_errors_witness :
    (setuserstate bogusWord).errWritten = true ∧
      (setuserstate bogusWord).reset = false ∧
      (sendfriendreq (AddRes.ok 0) ['a', 'b']).errText =
        some "Invalid friend ID" ∧
      (sendfriendreq (AddRes.ok 0) ['a', 'b']).reset = false ∧
      (setnospam pkZ cks0 ['g']).errWritten = true ∧
      (setnospam pkZ cks0 ['g']).reset = true :=
  c6_validation_errors bogusWord (by decide) (AddRes.ok 0) ['a', 'b']
    (by decide) pkZ cks0 ['g'] (by decide)

lemma id2str_append (xs ys : List Nat) :
    id2str (xs ++ ys) = id2str xs ++ id2str ys := by
  induction xs with
  | nil => rfl
  | cons b rest ih => simp [id2str, ih]

lemma id2str_length (xs : List Nat) : (id2str xs).length = 2 * xs.length := by
  induction xs with
  | nil => rfl
  | cons b rest ih => simp [id2str, ih]; omega

/-- Helper: the id file segment at the address's nospam field equals the %08X
image of the nospam value. -/
lemma id_nospam_segment (pk : List Nat) (hpk : pk.length = 32) (v : Nat)
    (cks : List Nat → List Nat) :
    ((id2str (toxAddress pk v cks)).drop 64).take 8 = hex8Chars v := by
  unfold toxAddress hex8Chars
  rw [List.append_assoc, id2str_append]
  have h64 : (id2str pk).length = 64 := by rw [id2str_length, hpk]
  rw [show (64 : Nat) = (id2str pk).length from h64.symm, List.drop_left,
    id2str_append]
  have h8 : (id2str (nospamBytes v)).length = 8 := by
    rw [id2str_length]; rfl
  rw [show (8 : Nat) = (id2str (nospamBytes v)).length from h8.symm,
    List.take_left]

/-- C7 counterexample: the three-character input ABC is accepted by setnospam
although it is not 8 hex characters; and after accepting DEADBEEF the last 8
hex characters of the rewritten id file (nospam tail plus checksum) differ from
the 8 hex characters of the new nospam. -/
theorem c7_counterexample :
    (setnospam pkZ cks0 abcInput).accepted = true ∧
      (stripNl abcInput).length ≠ 8 ∧
      (setnospam pkZ cks0 deadbeefInput).idChars =
        some (id2str (toxAddress pkZ 3735928559 cks0)) ∧
      (id2str (toxAddress pkZ 3735928559 cks0)).drop 68 ≠
        hex8Chars 3735928559 := by
  refine ⟨by decide, by decide, by decide, by decide⟩

/-- C7 amended: a write to nospam/in (the read delivers at most 8 bytes) is
accepted exactly when, after stripping one trailing newline, every remaining
character is in [0-9A-F] — the length is not checked, so shorter inputs are
accepted too; an input with an invalid character produces an err write and
leaves the nospam unchanged; on acceptance the value is echoed to nospam/out
as %08X and the id file is rewritten with the 76-hex-character refreshed
address, whose characters 64-71 (the nospam field) match the new nospam — the
final 4 characters being the checksum. -/
theorem c7_nospam (pk : List Nat) (hpk : pk.length = 32)
    (cks : List Nat → List Nat) (hcks : ∀ bs, (cks bs).length = 2)
    (inp : List Char) :
    ((setnospam pk cks inp).accepted = (stripNl inp).all validNospamChar) ∧
      ((stripNl inp).all validNospamChar = false →
        (setnospam pk cks inp).errWritten = true ∧
          (setnospam pk cks inp).newNospam = Option.none) ∧
      (setnospam pk cks inp).reset = true ∧
      (∀ v, (setnospam pk cks inp).newNospam = some v →
        (setnospam pk cks inp).outChars = some (hex8Chars v) ∧
          (setnospam pk cks inp).idChars =
            some (id2str (toxAddress pk v cks)) ∧
          (id2str (toxAddress pk v cks)).length = 76 ∧
          ((id2str (toxAddress pk v cks)).drop 64).take 8 = hex8Chars v) := by
  refine ⟨?_, ?_, ?_, ?_⟩
  · by_cases hv : (stripNl inp).all validNospamChar <;> simp [setnospam, hv]
  · intro hv; simp [setnospam, hv]
  · by_cases hv : (stripNl inp).all validNospamChar <;> simp [setnospam, hv]
  · intro v hvv
    by_cases hv : (stripNl inp).all validNospamChar
    · simp only [setnospam, hv, if_pos] at hvv ⊢
      simp only [Option.some.injEq] at hvv
      subst hvv
      refine ⟨by simp, by simp, ?_, id_nospam_segment pk hpk _ cks⟩
      rw [id2str_length]
      simp [toxAddress, nospamBytes, hpk, hcks]
    · simp [setnospam, hv] at hvv

/-- C7 witness: the amended behaviour evaluated on the concrete key, checksum
stub and the accepted three-character input. -/
theorem c7_nospam_witness :
    ((setnospam pkZ cks0 abcInput).accepted =
        (stripNl abcInput).all validNospamChar) ∧
      ((stripNl abcInput).all validNospamChar = false →
        (setnospam pkZ cks0 abcInput).errWritten = true ∧
          (setnospam pkZ cks0 abcInput).newNospam = Option.none) ∧
      (setnospam pkZ cks0 abcInput).reset = true ∧
      (∀ v, (setnospam pkZ cks0 abcInput).newNospam = some v →
        (setnospam pkZ cks0 abcInput).outChars = some (hex8Chars v) ∧
          (setnospam pkZ cks0 abcInput).idChars =
            some (id2str (toxAddress pkZ v cks0)) ∧
          (id2str (toxAddress pkZ v cks0)).length = 76 ∧
          ((id2str (toxAddress pkZ v cks0)).drop 64).take 8 = hex8Chars v) :=
  c7_nospam pkZ (by decide) cks0 (fun _ => rfl) abcInput

end Ratox
